import Mathlib

/-!
# Thread pool: bounded task queue and worker pool

A shallow embedding of `src/code/main.cpp` (classes `TaskQueue` and `ThreadPool`).

* A call that waits on a condition variable (`cv.wait(lock, pred)`) completes only in a
  state in which `pred` holds; in a state where `pred` is false the call is `blocked`
  (it is not enabled and changes nothing).
* A call that throws `std::runtime_error` is `raised` with the message passed to the
  constructor of the exception, together with the state the object is left in.
* A call that returns normally is `done` with its return value and the new state.

Each member function of `TaskQueue` runs under the queue's own mutex from its first to
its last statement, so it is one atomic transition of the queue state.
-/

namespace ThreadPoolImpl

/-! ## Outcomes of calls -/

/-- Outcome of one call on an object with state `σ` returning a value of type `α`. -/
inductive Outcome (σ α : Type) where
  /-- The wait predicate is false: the call cannot complete in this state. -/
  | blocked : Outcome σ α
  /-- A `std::runtime_error` with message `what` is thrown; the object is left in `s`. -/
  | raised (what : String) (s : σ) : Outcome σ α
  /-- Normal return of `a`; the object is left in `s`. -/
  | done (a : α) (s : σ) : Outcome σ α
  deriving DecidableEq, Repr

/-- Message of the exception thrown by `TaskQueue::push` (line 27). -/
def pushClosedMsg : String := "Cannot add tasks to a shutdown queue"

/-- Message of the exception thrown by `TaskQueue::pop` (line 38). -/
def popClosedMsg : String := "Cannot pop tasks from a shutdown queue"

/-- Message of the exception thrown by `ThreadPool::add_task` (line 95). -/
def poolClosedMsg : String := "Cannot add task to a shutdown thread pool"

/-! ## TaskQueue (lines 18-65) -/

/-- The data members of `TaskQueue`: `std::queue<Task> queue` as a list with the front
at the head, `size_t capacity` (only ever compared, never computed with), and
`bool shutdown`.  The mutex and the two condition variables are represented by the
atomicity of the operations and by the `blocked` outcome. -/
structure TaskQueue (Task : Type) where
  queue : List Task
  capacity : Nat
  shutdown : Bool
  deriving DecidableEq, Repr

namespace TaskQueue

variable {Task : Type}

/-- Constructor `TaskQueue(size_t size) : capacity(size)` (line 20); `shutdown = false`
is the default member initialiser (line 64) and the queue starts empty. -/
def new (size : Nat) : TaskQueue Task :=
  { queue := [], capacity := size, shutdown := false }

/-- `TaskQueue::push` (lines 22-31). -/
def push (q : TaskQueue Task) (task : Task) : Outcome (TaskQueue Task) Unit :=
  -- condition_full.wait(lock, [this]() { return queue.size() < capacity || shutdown; });
  if decide (q.queue.length < q.capacity) || q.shutdown then
    if q.shutdown then
      .raised pushClosedMsg q
    else
      -- queue.push(task);
      .done () { q with queue := q.queue ++ [task] }
  else
    .blocked

/-- `TaskQueue::pop` (lines 33-44). -/
def pop (q : TaskQueue Task) : Outcome (TaskQueue Task) Task :=
  -- condition_empty.wait(lock, [this]() { return !queue.empty() || shutdown; });
  if !q.queue.isEmpty || q.shutdown then
    if q.shutdown && q.queue.isEmpty then
      .raised popClosedMsg q
    else
      -- Task task = queue.front(); queue.pop(); return task;
      match q.queue with
      | task :: rest => .done task { q with queue := rest }
      | [] => .blocked -- excluded by the two tests above, see `pop_nil`
  else
    .blocked

/-- `TaskQueue::is_empty` (lines 46-49). -/
def is_empty (q : TaskQueue Task) : Bool :=
  q.queue.isEmpty

/-- `TaskQueue::set_shutdown` (lines 51-56). -/
def set_shutdown (q : TaskQueue Task) : TaskQueue Task :=
  { q with shutdown := true }

end TaskQueue

/-! ## Sequences of queue operations -/

/-- One call on a `TaskQueue`. -/
inductive QueueOp (Task : Type) where
  | push (task : Task)
  | pop
  | is_empty
  | set_shutdown
  deriving DecidableEq, Repr

/-- A queue together with the record of what its callers have observed: the tasks
accepted by pushes that returned normally and the tasks returned by pops that returned
normally, both in the order of the calls. -/
structure QueueRun (Task : Type) where
  state : TaskQueue Task
  pushed : List Task
  popped : List Task
  deriving DecidableEq, Repr

namespace QueueRun

variable {Task : Type}

/-- A freshly constructed queue of capacity `c`, nothing pushed or popped yet. -/
def init (c : Nat) : QueueRun Task :=
  { state := TaskQueue.new c, pushed := [], popped := [] }

/-- Effect of one attempted call.  A call that is blocked has not completed and leaves
everything as it was; a call that throws leaves the state it reports. -/
def step (r : QueueRun Task) : QueueOp Task → QueueRun Task
  | .push task =>
    match r.state.push task with
    | .done _ q => { r with state := q, pushed := r.pushed ++ [task] }
    | .raised _ q => { r with state := q }
    | .blocked => r
  | .pop =>
    match r.state.pop with
    | .done task q => { r with state := q, popped := r.popped ++ [task] }
    | .raised _ q => { r with state := q }
    | .blocked => r
  | .is_empty => r
  | .set_shutdown => { r with state := r.state.set_shutdown }

/-- Run a finite sequence of calls, first call first. -/
def run (r : QueueRun Task) (ops : List (QueueOp Task)) : QueueRun Task :=
  ops.foldl step r

end QueueRun

/-- The state after `k` consecutive pops, with the tasks they returned, or `none` as
soon as one of them does not return a task. -/
def popMany {Task : Type} : Nat → TaskQueue Task → Option (List Task × TaskQueue Task)
  | 0, q => some ([], q)
  | k + 1, q =>
    match q.pop with
    | .done task q1 =>
      match popMany k q1 with
      | some (ts, q2) => some (task :: ts, q2)
      | none => none
    | _ => none

/-! ## ThreadPool (lines 68-126) -/

/-- What one call `task.function()` does, as seen by its caller (line 115).  An empty
`std::function` throws `std::bad_function_call`, which is a `throwsStd`. -/
inductive Completion where
  /-- The call returns normally. -/
  | returns
  /-- The call throws an exception of a class derived from `std::exception` whose
  `what()` is the given text. -/
  | throwsStd (what : String)
  /-- The call throws a value whose type is not derived from `std::exception`
  (for instance `throw 42;`). -/
  | throwsOther
  /-- The call never returns. -/
  | neverReturns
  deriving DecidableEq, Repr

/-- The data members of `ThreadPool`: the queue, one entry per worker thread describing
where that thread is, and the pool's own `shutdown` flag. -/
structure ThreadPool (Task Thread : Type) where
  task_queue : TaskQueue Task
  threads : List Thread
  shutdown : Bool
  deriving DecidableEq, Repr

namespace ThreadPool

variable {Task Thread : Type}

/-- `ThreadPool::add_task` (lines 91-100) with the call on line 98 passed as `pushFn`. -/
def add_taskWith (pushFn : TaskQueue Task → Task → Outcome (TaskQueue Task) Unit)
    (p : ThreadPool Task Thread) (function : Task) : Outcome (ThreadPool Task Thread) Unit :=
  -- if (shutdown) throw std::runtime_error("Cannot add task to a shutdown thread pool");
  if p.shutdown then
    .raised poolClosedMsg p
  else
    -- task_queue.push({function});
    match pushFn p.task_queue function with
    | .blocked => .blocked
    | .raised what q => .raised what { p with task_queue := q }
    | .done _ q => .done () { p with task_queue := q }

/-- `ThreadPool::add_task` (lines 91-100). -/
def add_task (p : ThreadPool Task Thread) (function : Task) :
    Outcome (ThreadPool Task Thread) Unit :=
  add_taskWith TaskQueue.push p function

/-- The statements of `ThreadPool::~ThreadPool` before the joins (lines 78-83):
`shutdown = true; task_queue.set_shutdown();`. -/
def destructor (p : ThreadPool Task Thread) : ThreadPool Task Thread :=
  { p with shutdown := true, task_queue := p.task_queue.set_shutdown }

/-- The predicate the worker waits for on line 109: `shutdown || !task_queue.is_empty()`. -/
def workerMayProceed (p : ThreadPool Task Thread) : Bool :=
  p.shutdown || !p.task_queue.is_empty

/-- The test of line 110: `shutdown && task_queue.is_empty()`. -/
def workerMustReturn (p : ThreadPool Task Thread) : Bool :=
  p.shutdown && p.task_queue.is_empty

end ThreadPool

/-- The text written to `std::cerr` on line 117 for an exception with the given `what()`. -/
def taskFailedLine (what : String) : String :=
  "Task failed: " ++ what

/-! ## The pool with whole calls as steps

Each step is one complete `add_task` call, one complete iteration of the `while (true)`
loop of one worker, or the flag-setting part of the destructor.  These are the runs of
the program in which no call is interrupted by another thread.  The program has more
runs than these, which `Interleaving` below describes; this model is used to state what
one call or one iteration does and to exhibit particular runs, and nothing about all
runs of the program is concluded from it. -/

/-- Where a worker thread is, between iterations of its loop. -/
inductive ThreadState where
  /-- In the `while (true)` loop, at the top of an iteration. -/
  | running
  /-- Left `worker()` through the `return` on line 111. -/
  | returned
  /-- An exception left `worker()`: `std::terminate` has been called. -/
  | terminated
  /-- Inside a `task.function()` call that never returns. -/
  | busy
  deriving DecidableEq, Repr

/-- A pool together with the record of what has been observed: the tasks whose
`add_task` returned normally, the tasks on which `function()` was called, the lines
written to `std::cerr`, and whether `std::terminate` has ended the process. -/
structure PoolRun (Task : Type) where
  pool : ThreadPool Task ThreadState
  accepted : List Task
  executed : List Task
  cerr : List String
  aborted : Bool
  deriving DecidableEq, Repr

/-- One call of a client or one iteration of a worker. -/
inductive PoolAction (Task : Type) where
  | add_task (function : Task)
  | worker (i : Nat)
  | destructor
  deriving DecidableEq, Repr

namespace PoolRun

variable {Task : Type}

/-- Constructor `ThreadPool(thread_count, queue_size)` (lines 70-75). -/
def init (thread_count queue_size : Nat) : PoolRun Task :=
  { pool := { task_queue := TaskQueue.new queue_size
              threads := List.replicate thread_count ThreadState.running
              shutdown := false }
    accepted := [], executed := [], cerr := [], aborted := false }

/-- Record the new state of worker `i`. -/
def setThread (r : PoolRun Task) (i : Nat) (t : ThreadState) : PoolRun Task :=
  { r with pool := { r.pool with threads := r.pool.threads.set i t } }

/-- Replace the queue. -/
def setQueue (r : PoolRun Task) (q : TaskQueue Task) : PoolRun Task :=
  { r with pool := { r.pool with task_queue := q } }

/-- One iteration of the loop of `ThreadPool::worker` (lines 104-119) by worker `i`;
`none` when the iteration cannot complete in this state. -/
def worker (function : Task → Completion) (r : PoolRun Task) (i : Nat) :
    Option (PoolRun Task) :=
  if r.pool.threads[i]? = some ThreadState.running then
    -- condition.wait(lock, [this]() { return shutdown || !task_queue.is_empty(); });
    if r.pool.workerMayProceed then
      -- if (shutdown && task_queue.is_empty()) return;
      if r.pool.workerMustReturn then
        some (r.setThread i ThreadState.returned)
      else
        -- task = task_queue.pop();
        match r.pool.task_queue.pop with
        | .blocked => none
        | .raised what q =>
          -- catch (const std::exception& e), then the next iteration
          some { r.setQueue q with cerr := r.cerr ++ [taskFailedLine what] }
        | .done task q =>
          -- task.function();
          let r1 : PoolRun Task := { r.setQueue q with executed := r.executed ++ [task] }
          match function task with
          | .returns => some r1
          | .throwsStd what => some { r1 with cerr := r1.cerr ++ [taskFailedLine what] }
          | .throwsOther => some { r1.setThread i ThreadState.terminated with aborted := true }
          | .neverReturns => some (r1.setThread i ThreadState.busy)
    else
      none
  else
    none

/-- Effect of one attempted step.  A step that cannot complete leaves everything as it
was, and nothing happens any more once the process has been terminated. -/
def step (function : Task → Completion) (r : PoolRun Task) : PoolAction Task → PoolRun Task
  | .add_task task =>
    if r.aborted then r else
    match r.pool.add_task task with
    | .done _ p => { r with pool := p, accepted := r.accepted ++ [task] }
    | .raised _ p => { r with pool := p }
    | .blocked => r
  | .worker i =>
    if r.aborted then r else (worker function r i).getD r
  | .destructor =>
    if r.aborted then r else { r with pool := r.pool.destructor }

/-- Run a finite sequence of steps, first step first. -/
def run (function : Task → Completion) (r : PoolRun Task) (acts : List (PoolAction Task)) :
    PoolRun Task :=
  acts.foldl (step function) r

end PoolRun

/-! ## The pool with the statements of each thread as steps

Here the threads interleave between statements.  The pool mutex has an owner; the
critical section of the worker (lines 108-114) spans several steps during which the
worker owns the mutex, while the critical sections of `add_task` (lines 93-96) and of
the destructor (lines 79-80) are one step each, taken when the mutex is free.  A thread
inside `condition.wait` may re-evaluate its predicate whenever it can take the mutex,
which covers every notification as well as spurious wake-ups.  The pool's `shutdown`
flag is read and written only by the owner of the pool mutex, so a worker that owns the
mutex evaluates `shutdown || !task_queue.is_empty()` in one step. -/

/-- Where a worker thread is in `ThreadPool::worker`. -/
inductive Pc (Task : Type) where
  /-- Line 108: about to lock the pool mutex. -/
  | loopTop
  /-- Line 109: owns the mutex, about to evaluate the wait predicate. -/
  | waitPred
  /-- Line 109: inside `condition.wait`, mutex released. -/
  | waiting
  /-- Line 110: owns the mutex, the wait predicate was true. -/
  | exitTest
  /-- Line 113: owns the mutex, about to call `task_queue.pop()`. -/
  | callPop
  /-- Line 115: mutex released, about to call `task.function()`. -/
  | callTask (task : Task)
  /-- Left `worker()` through the `return` on line 111. -/
  | returned
  /-- An exception left `worker()`: `std::terminate` has been called. -/
  | terminated
  /-- Inside a `task.function()` call that never returns. -/
  | busy
  deriving DecidableEq, Repr

/-- Where the thread running `ThreadPool::~ThreadPool` is. -/
inductive DtorPc where
  /-- The destructor has not been entered. -/
  | notStarted
  /-- Line 80 has run: the pool's flag is set, the queue is not closed yet. -/
  | flagSet
  /-- Line 82 has run: the queue is closed; the destructor notifies and joins. -/
  | queueClosed
  deriving DecidableEq, Repr

/-- The pool, the owner of the pool mutex (a worker index), the tasks of the `add_task`
calls that have passed the test of line 94 and have not yet completed line 98, the
position of the destructor, and the same record of observations as in `PoolRun`. -/
structure Interleaving (Task : Type) where
  pool : ThreadPool Task (Pc Task)
  owner : Option Nat
  pending : List Task
  dtor : DtorPc
  accepted : List Task
  executed : List Task
  cerr : List String
  aborted : Bool
  deriving DecidableEq, Repr

/-- One step of one thread. -/
inductive ThreadStep (Task : Type) where
  /-- Worker `i` runs its next statement. -/
  | worker (i : Nat)
  /-- A client enters `add_task(function)` and runs lines 92-97. -/
  | add_task_enter (function : Task)
  /-- The client whose task is at position `k` of `pending` runs line 98. -/
  | add_task_push (k : Nat)
  /-- The destructor runs its next statement. -/
  | destructor
  deriving DecidableEq, Repr

namespace Interleaving

variable {Task : Type}

/-- Constructor `ThreadPool(thread_count, queue_size)` (lines 70-75). -/
def init (thread_count queue_size : Nat) : Interleaving Task :=
  { pool := { task_queue := TaskQueue.new queue_size
              threads := List.replicate thread_count Pc.loopTop
              shutdown := false }
    owner := none, pending := [], dtor := DtorPc.notStarted
    accepted := [], executed := [], cerr := [], aborted := false }

/-- Record the new position of worker `i`. -/
def setThread (s : Interleaving Task) (i : Nat) (pc : Pc Task) : Interleaving Task :=
  { s with pool := { s.pool with threads := s.pool.threads.set i pc } }

/-- Replace the queue. -/
def setQueue (s : Interleaving Task) (q : TaskQueue Task) : Interleaving Task :=
  { s with pool := { s.pool with task_queue := q } }

/-- The next statement of worker `i` (lines 104-119); `none` when it cannot run. -/
def workerStep (function : Task → Completion) (s : Interleaving Task) (i : Nat) :
    Option (Interleaving Task) :=
  match s.pool.threads[i]? with
  | none => none
  | some Pc.loopTop =>
    -- std::unique_lock<std::mutex> lock(mutex);
    if s.owner = none then some { s.setThread i Pc.waitPred with owner := some i } else none
  | some Pc.waitPred =>
    -- condition.wait(lock, [this]() { return shutdown || !task_queue.is_empty(); });
    if s.pool.workerMayProceed then
      some (s.setThread i Pc.exitTest)
    else
      some { s.setThread i Pc.waiting with owner := none }
  | some Pc.waiting =>
    if s.owner = none then some { s.setThread i Pc.waitPred with owner := some i } else none
  | some Pc.exitTest =>
    -- if (shutdown && task_queue.is_empty()) return;
    if s.pool.workerMustReturn then
      some { s.setThread i Pc.returned with owner := none }
    else
      some (s.setThread i Pc.callPop)
  | some Pc.callPop =>
    -- task = task_queue.pop();
    match s.pool.task_queue.pop with
    | .blocked => none
    | .raised what q =>
      -- catch (const std::exception& e), the lock is released by unwinding
      some { (s.setQueue q).setThread i Pc.loopTop with
             owner := none, cerr := s.cerr ++ [taskFailedLine what] }
    | .done task q =>
      some { (s.setQueue q).setThread i (Pc.callTask task) with owner := none }
  | some (Pc.callTask task) =>
    -- task.function();
    let s1 : Interleaving Task := { s with executed := s.executed ++ [task] }
    match function task with
    | .returns => some (s1.setThread i Pc.loopTop)
    | .throwsStd what =>
      some { s1.setThread i Pc.loopTop with cerr := s1.cerr ++ [taskFailedLine what] }
    | .throwsOther => some { s1.setThread i Pc.terminated with aborted := true }
    | .neverReturns => some (s1.setThread i Pc.busy)
  | some Pc.returned => none
  | some Pc.terminated => none
  | some Pc.busy => none

/-- Lines 92-97 of `add_task`: lock, test `shutdown`, unlock. -/
def addTaskEnter (s : Interleaving Task) (function : Task) : Option (Interleaving Task) :=
  if s.owner = none then
    if s.pool.shutdown then
      some s -- the exception of line 95 is thrown, nothing is changed
    else
      some { s with pending := s.pending ++ [function] }
  else
    none

/-- Line 98 of `add_task` for the task at position `k` of `pending`. -/
def addTaskPush (s : Interleaving Task) (k : Nat) : Option (Interleaving Task) :=
  match s.pending[k]? with
  | none => none
  | some task =>
    match s.pool.task_queue.push task with
    | .blocked => none
    | .raised _ q => some { s.setQueue q with pending := s.pending.eraseIdx k }
    | .done _ q =>
      some { s.setQueue q with
             pending := s.pending.eraseIdx k, accepted := s.accepted ++ [task] }

/-- The next statement of the destructor (lines 78-83). -/
def destructorStep (s : Interleaving Task) : Option (Interleaving Task) :=
  match s.dtor with
  | .notStarted =>
    -- { std::unique_lock<std::mutex> lock(mutex); shutdown = true; }
    if s.owner = none then
      some { s with pool := { s.pool with shutdown := true }, dtor := DtorPc.flagSet }
    else
      none
  | .flagSet =>
    -- task_queue.set_shutdown();
    some { s.setQueue s.pool.task_queue.set_shutdown with dtor := DtorPc.queueClosed }
  | .queueClosed => none

/-- Effect of one attempted step.  A step that cannot run leaves everything as it was,
and nothing happens any more once the process has been terminated. -/
def step (function : Task → Completion) (s : Interleaving Task) :
    ThreadStep Task → Interleaving Task
  | .worker i => if s.aborted then s else (workerStep function s i).getD s
  | .add_task_enter task => if s.aborted then s else (addTaskEnter s task).getD s
  | .add_task_push k => if s.aborted then s else (addTaskPush s k).getD s
  | .destructor => if s.aborted then s else (destructorStep s).getD s

/-- Run a finite schedule, first step first. -/
def run (function : Task → Completion) (s : Interleaving Task)
    (steps : List (ThreadStep Task)) : Interleaving Task :=
  steps.foldl (step function) s

/-- Worker `i` is at a statement that it executes while owning the pool mutex. -/
def inCriticalSection (pc : Pc Task) : Bool :=
  match pc with
  | .waitPred => true
  | .exitTest => true
  | .callPop => true
  | _ => false

end Interleaving

/-! ## Invariants and auxiliary notions used in the proofs -/

/-- The queue's representation invariant together with the bookkeeping of the callers:
what was pushed is what was popped followed by what is still queued. -/
def QueueRun.Consistent {Task : Type} (c : Nat) (r : QueueRun Task) : Prop :=
  r.state.capacity = c ∧ r.state.queue.length ≤ c ∧ r.pushed = r.popped ++ r.state.queue

/-- A call is harmless for a full queue when it is neither a pop nor a set_shutdown. -/
def QueueOp.keepsFull {Task : Type} : QueueOp Task → Bool
  | .push _ => true
  | .is_empty => true
  | .pop => false
  | .set_shutdown => false

/-- The task at the front of the queue after an iteration took `task` from it. -/
def PoolRun.afterPop {Task : Type} (r : PoolRun Task) (task : Task) (rest : List Task) :
    PoolRun Task :=
  { r.setQueue { r.pool.task_queue with queue := rest } with executed := r.executed ++ [task] }

/-- A workload in which task `0` throws a value that is not a `std::exception`
(`throw 42;`) and every other task returns normally. -/
def throwsIntFirst : Nat → Completion :=
  fun k => if k = 0 then Completion.throwsOther else Completion.returns

/-- Mutual exclusion on the pool mutex and what the owner has established: a worker at
a statement of the critical section owns the mutex; at line 110 the wait predicate
holds; at line 113 the queue is not empty. -/
def Interleaving.Safe {Task : Type} (s : Interleaving Task) : Prop :=
  (∀ (i : Nat) (pc : Pc Task), s.pool.threads[i]? = some pc →
    Interleaving.inCriticalSection pc = true → s.owner = some i) ∧
  (∀ i : Nat, s.pool.threads[i]? = some Pc.exitTest →
    s.pool.shutdown = true ∨ s.pool.task_queue.queue ≠ []) ∧
  (∀ i : Nat, s.pool.threads[i]? = some Pc.callPop → s.pool.task_queue.queue ≠ [])

section QueueLemmas
variable {Task : Type}

theorem TaskQueue.pop_nil (q : TaskQueue Task) (h : q.queue = []) :
    q.pop = if q.shutdown then Outcome.raised popClosedMsg q else Outcome.blocked := by
  cases hs : q.shutdown <;> simp [TaskQueue.pop, h, hs]

theorem TaskQueue.pop_cons (q : TaskQueue Task) (task : Task) (rest : List Task)
    (h : q.queue = task :: rest) :
    q.pop = Outcome.done task { q with queue := rest } := by
  cases hs : q.shutdown <;> simp [TaskQueue.pop, h, hs]

theorem TaskQueue.push_open (q : TaskQueue Task) (task : Task) (hs : q.shutdown = false) :
    q.push task = if q.queue.length < q.capacity then
      Outcome.done () { q with queue := q.queue ++ [task] } else Outcome.blocked := by
  by_cases hl : q.queue.length < q.capacity <;> simp [TaskQueue.push, hs, hl]

theorem TaskQueue.push_closed (q : TaskQueue Task) (task : Task) (hs : q.shutdown = true) :
    q.push task = Outcome.raised pushClosedMsg q := by
  simp [TaskQueue.push, hs]

end QueueLemmas

section QueueTheorems
variable {Task : Type}

/-- A property that holds initially and is kept by every attempted call holds after
every finite sequence of calls. -/
theorem QueueRun.queueRun_induction (P : QueueRun Task → Prop)
    (hstep : ∀ r op, P r → P (r.step op)) :
    ∀ (ops : List (QueueOp Task)) (r : QueueRun Task), P r → P (r.run ops) := by
  intro ops
  induction ops with
  | nil => intro r h; exact h
  | cons op ops ih =>
    intro r h
    exact ih (r.step op) (hstep r op h)

theorem QueueRun.consistent_init (c : Nat) :
    QueueRun.Consistent c (QueueRun.init c : QueueRun Task) := by
  simp [QueueRun.Consistent, QueueRun.init, TaskQueue.new]

theorem QueueRun.consistent_step (c : Nat) (r : QueueRun Task) (op : QueueOp Task)
    (h : QueueRun.Consistent c r) : QueueRun.Consistent c (r.step op) := by
  obtain ⟨hc, hl, hp⟩ := h
  cases op with
  | push task =>
    cases hs : r.state.shutdown
    · by_cases hlt : r.state.queue.length < r.state.capacity
      · simp only [QueueRun.step, TaskQueue.push_open _ _ hs, hlt, if_true]
        refine ⟨hc, ?_, ?_⟩
        · simp only [List.length_append, List.length_singleton]; omega
        · simp [hp]
      · simp only [QueueRun.step, TaskQueue.push_open _ _ hs, hlt, if_false]
        exact ⟨hc, hl, hp⟩
    · simp only [QueueRun.step, TaskQueue.push_closed _ _ hs]
      exact ⟨hc, hl, hp⟩
  | pop =>
    cases hq : r.state.queue with
    | nil =>
      cases hs : r.state.shutdown <;>
        simp only [QueueRun.step, TaskQueue.pop_nil _ hq, hs, if_true] <;>
        exact ⟨hc, hl, hp⟩
    | cons task rest =>
      simp only [QueueRun.step, TaskQueue.pop_cons _ _ _ hq]
      refine ⟨hc, ?_, ?_⟩
      · rw [hq] at hl; simp only [List.length_cons] at hl; simp only; omega
      · simp [hp, hq]
  | is_empty => exact ⟨hc, hl, hp⟩
  | set_shutdown => exact ⟨hc, hl, hp⟩

theorem QueueRun.consistent_run (c : Nat) (ops : List (QueueOp Task)) :
    QueueRun.Consistent c ((QueueRun.init c : QueueRun Task).run ops) :=
  QueueRun.queueRun_induction (QueueRun.Consistent c)
    (fun r op h => QueueRun.consistent_step c r op h) ops _ (QueueRun.consistent_init c)

end QueueTheorems

section QueueClaims
variable {Task : Type}

/-- C1. Queue capacity invariant: starting from an empty `TaskQueue` built with capacity
`c`, after every finite sequence of push, pop, is_empty and set_shutdown calls the number
`n` of queued tasks satisfies `0 ≤ n ≤ c` (and the capacity is still `c`).  Moreover a
push that enqueues found `size < capacity` with shutdown not set, and a pop that
dequeues found a non-empty queue. -/
theorem C1_queue_capacity_invariant (c : Nat) (ops : List (QueueOp Task)) :
    ((QueueRun.init c : QueueRun Task).run ops).state.capacity = c ∧
    0 ≤ ((QueueRun.init c : QueueRun Task).run ops).state.queue.length ∧
    ((QueueRun.init c : QueueRun Task).run ops).state.queue.length ≤ c ∧
    (∀ (q q1 : TaskQueue Task) (task : Task), q.push task = Outcome.done () q1 →
      q.queue.length < q.capacity ∧ q.shutdown = false ∧ q1.queue = q.queue ++ [task]) ∧
    (∀ (q q1 : TaskQueue Task) (task : Task), q.pop = Outcome.done task q1 →
      q.queue ≠ [] ∧ q.queue = task :: q1.queue) := by
  have h := @QueueRun.consistent_run Task c ops
  refine ⟨h.1, Nat.zero_le _, h.2.1, ?_, ?_⟩
  · intro q q1 task hpush
    cases hs : q.shutdown
    · rw [TaskQueue.push_open _ _ hs] at hpush
      by_cases hlt : q.queue.length < q.capacity
      · simp only [hlt, if_true, Outcome.done.injEq, true_and] at hpush
        subst hpush
        exact ⟨hlt, rfl, rfl⟩
      · simp [hlt] at hpush
    · rw [TaskQueue.push_closed _ _ hs] at hpush
      cases hpush
  · intro q q1 task hpop
    cases hq : q.queue with
    | nil =>
      rw [TaskQueue.pop_nil _ hq] at hpop
      cases hs : q.shutdown <;> simp [hs] at hpop
    | cons t rest =>
      rw [TaskQueue.pop_cons _ _ _ hq] at hpop
      simp only [Outcome.done.injEq] at hpop
      obtain ⟨ht, hq1⟩ := hpop
      subst ht; subst hq1
      exact ⟨by simp, rfl⟩

/-- Witness of C1: a push that enqueues on a queue of capacity 2 holding one task. -/
theorem C1_queue_capacity_invariant_witness :
    ({ queue := [1], capacity := 2, shutdown := false } : TaskQueue Nat).push 2 =
      Outcome.done () { queue := [1, 2], capacity := 2, shutdown := false } ∧
    ((QueueRun.init 2 : QueueRun Nat).run
      [.push 1, .push 2, .push 3, .pop, .push 4, .set_shutdown, .push 5]).state.queue.length
      ≤ 2 ∧
    ([1] : List Nat).length < 2 :=
  ⟨by decide,
   (C1_queue_capacity_invariant 2
      [.push 1, .push 2, .push 3, .pop, .push 4, .set_shutdown, .push 5]).2.2.1,
   ((@C1_queue_capacity_invariant Nat 2 []).2.2.2.1
      { queue := [1], capacity := 2, shutdown := false }
      { queue := [1, 2], capacity := 2, shutdown := false } 2 (by decide)).1⟩

/-- Draining a closed queue: `k` pops return the `k` queued tasks front first. -/
theorem popMany_closed (ts : List Task) (c : Nat) :
    popMany ts.length ({ queue := ts, capacity := c, shutdown := true } : TaskQueue Task) =
      some (ts, { queue := [], capacity := c, shutdown := true }) := by
  induction ts with
  | nil => rfl
  | cons t rest ih =>
    simp only [List.length_cons, popMany]
    rw [TaskQueue.pop_cons _ t rest rfl]
    simp only [ih]

/-- C2. Shutdown drains the backlog: for every queue holding `n ≥ 0` tasks `t1..tn`,
set_shutdown keeps the queued tasks; the next `n` pops all succeed and return `t1..tn`
in that order, leaving a closed empty queue, on which the next pop fails with the
queue-closed error (it throws, it is not blocked). -/
theorem C2_shutdown_drains_backlog (q : TaskQueue Task) :
    q.set_shutdown.queue = q.queue ∧
    popMany q.queue.length q.set_shutdown =
      some (q.queue, { queue := [], capacity := q.capacity, shutdown := true }) ∧
    ({ queue := [], capacity := q.capacity, shutdown := true } : TaskQueue Task).pop =
      Outcome.raised popClosedMsg { queue := [], capacity := q.capacity, shutdown := true } := by
  refine ⟨rfl, ?_, ?_⟩
  · exact popMany_closed q.queue q.capacity
  · rfl

/-- C3. FIFO order: for every finite sequence of push, pop, is_empty and set_shutdown
calls applied to an initially empty `TaskQueue`, the list of tasks returned by the
successful pops is a prefix of the list of tasks accepted by the successful pushes; the
rest of that list is exactly the content of the queue. -/
theorem C3_fifo_order (c : Nat) (ops : List (QueueOp Task)) :
    ((QueueRun.init c : QueueRun Task).run ops).popped <+:
      ((QueueRun.init c : QueueRun Task).run ops).pushed ∧
    ((QueueRun.init c : QueueRun Task).run ops).pushed =
      ((QueueRun.init c : QueueRun Task).run ops).popped ++
        ((QueueRun.init c : QueueRun Task).run ops).state.queue := by
  have h := @QueueRun.consistent_run Task c ops
  exact ⟨⟨_, h.2.2.symm⟩, h.2.2⟩

/-- C4. Push on a closed queue is rejected atomically: for every queue state whose
shutdown flag is set (full, partly filled or empty) and every task, push throws the
queue-closed error and leaves the queue exactly as it was. -/
theorem C4_push_on_closed_queue (q : TaskQueue Task) (task : Task)
    (h : q.shutdown = true) :
    q.push task = Outcome.raised pushClosedMsg q :=
  TaskQueue.push_closed q task h

/-- Witness of C4 on a full closed queue of capacity 2. -/
theorem C4_push_on_closed_queue_witness :
    (({ queue := [1, 2], capacity := 2, shutdown := true } : TaskQueue Nat).shutdown = true) ∧
    ({ queue := [1, 2], capacity := 2, shutdown := true } : TaskQueue Nat).push 3 =
      Outcome.raised pushClosedMsg { queue := [1, 2], capacity := 2, shutdown := true } :=
  ⟨rfl, C4_push_on_closed_queue _ 3 rfl⟩

theorem QueueRun.run_full (r : QueueRun Task) (hs : r.state.shutdown = false)
    (hfull : r.state.queue.length = r.state.capacity) :
    ∀ ops : List (QueueOp Task), (∀ op ∈ ops, op.keepsFull = true) → r.run ops = r := by
  intro ops
  induction ops with
  | nil => intro _; rfl
  | cons op ops ih =>
    intro hops
    have hop : op.keepsFull = true := hops op (List.mem_cons_self _ _)
    have hrest : ∀ o ∈ ops, o.keepsFull = true :=
      fun o ho => hops o (List.mem_cons_of_mem _ ho)
    have hstep : r.step op = r := by
      cases op with
      | push task =>
        simp only [QueueRun.step, TaskQueue.push_open _ _ hs, hfull, lt_irrefl, if_false]
      | is_empty => rfl
      | pop => cases hop
      | set_shutdown => cases hop
    show (r.step op).run ops = r
    rw [hstep]
    exact ih hrest

/-- C5. Backpressure.  For every queue with shutdown not set and length equal to
capacity: a push is blocked (not enabled, enqueues nothing); it stays so after any
sequence of calls that contains no pop and no set_shutdown, which leave the queue as it
is; once a pop has removed an item the push completes and appends at the tail; once the
queue is closed the push completes by throwing.  With length below capacity and
shutdown not set a push completes at once and appends the task at the tail. -/
theorem C5_backpressure (q : TaskQueue Task) (task : Task) (hs : q.shutdown = false) :
    (q.queue.length = q.capacity →
      q.push task = Outcome.blocked ∧
      (∀ (pushed popped : List Task) (ops : List (QueueOp Task)),
        (∀ op ∈ ops, op.keepsFull = true) →
        (QueueRun.run ⟨q, pushed, popped⟩ ops) = ⟨q, pushed, popped⟩) ∧
      (∀ (t : Task) (q1 : TaskQueue Task), q.pop = Outcome.done t q1 →
        q1.push task = Outcome.done () { q1 with queue := q1.queue ++ [task] }) ∧
      q.set_shutdown.push task = Outcome.raised pushClosedMsg q.set_shutdown) ∧
    (q.queue.length < q.capacity →
      q.push task = Outcome.done () { q with queue := q.queue ++ [task] }) := by
  constructor
  · intro hfull
    refine ⟨?_, ?_, ?_, ?_⟩
    · simp [TaskQueue.push_open _ _ hs, hfull]
    · intro pushed popped ops hops
      exact QueueRun.run_full ⟨q, pushed, popped⟩ hs hfull ops hops
    · intro t q1 hpop
      cases hq : q.queue with
      | nil =>
        rw [TaskQueue.pop_nil _ hq] at hpop
        simp [hs] at hpop
      | cons t0 rest =>
        rw [TaskQueue.pop_cons _ _ _ hq] at hpop
        simp only [Outcome.done.injEq] at hpop
        obtain ⟨_, hq1⟩ := hpop
        subst hq1
        have hlt : rest.length < q.capacity := by
          rw [← hfull, hq]; simp
        rw [TaskQueue.push_open _ _ (show ({ q with queue := rest } : TaskQueue Task).shutdown
          = false from hs)]
        simp [hlt]
    · exact TaskQueue.push_closed _ _ rfl
  · intro hlt
    simp [TaskQueue.push_open _ _ hs, hlt]

/-- Witness of C5, the example of the specification: capacity 2, push A and push B
succeed, push C is blocked, and completes once A has been popped. -/
theorem C5_backpressure_witness :
    (QueueRun.run (QueueRun.init 2) [.push "A", .push "B"] : QueueRun String).state =
      { queue := ["A", "B"], capacity := 2, shutdown := false } ∧
    ({ queue := ["A", "B"], capacity := 2, shutdown := false } : TaskQueue String).push "C" =
      Outcome.blocked ∧
    ({ queue := ["A", "B"], capacity := 2, shutdown := false } : TaskQueue String).pop =
      Outcome.done "A" { queue := ["B"], capacity := 2, shutdown := false } ∧
    ({ queue := ["B"], capacity := 2, shutdown := false } : TaskQueue String).push "C" =
      Outcome.done () { queue := ["B", "C"], capacity := 2, shutdown := false } :=
  ⟨by decide,
   ((C5_backpressure ({ queue := ["A", "B"], capacity := 2, shutdown := false } :
      TaskQueue String) "C" rfl).1 rfl).1,
   by decide,
   (C5_backpressure ({ queue := ["B"], capacity := 2, shutdown := false } :
      TaskQueue String) "C" rfl).2 (by decide)⟩

/-- C9. close is one-way and idempotent: for every queue state, set_shutdown yields a
state with `shutdown = true` and the same queued items in the same order (and the same
capacity); a second set_shutdown yields that same state; and no queue operation (push,
pop, is_empty, set_shutdown), whether it returns, throws or blocks, turns `shutdown`
from true back to false. -/
theorem C9_close_one_way_idempotent (q : TaskQueue Task) :
    q.set_shutdown.shutdown = true ∧
    q.set_shutdown.queue = q.queue ∧
    q.set_shutdown.capacity = q.capacity ∧
    q.set_shutdown.set_shutdown = q.set_shutdown ∧
    (∀ (pushed popped : List Task) (op : QueueOp Task), q.shutdown = true →
      ((QueueRun.mk q pushed popped).step op).state.shutdown = true) ∧
    (∀ (pushed popped : List Task) (ops : List (QueueOp Task)), q.shutdown = true →
      ((QueueRun.mk q pushed popped).run ops).state.shutdown = true) := by
  have hstep : ∀ (r : QueueRun Task) (op : QueueOp Task), r.state.shutdown = true →
      (r.step op).state.shutdown = true := by
    intro r op hs
    cases op with
    | push task => simp only [QueueRun.step, TaskQueue.push_closed _ _ hs]; exact hs
    | pop =>
      cases hq : r.state.queue with
      | nil => simp only [QueueRun.step, TaskQueue.pop_nil _ hq, hs, if_true]
      | cons t rest => simp only [QueueRun.step, TaskQueue.pop_cons _ _ _ hq]; exact hs
    | is_empty => exact hs
    | set_shutdown => rfl
  refine ⟨rfl, rfl, rfl, rfl, ?_, ?_⟩
  · intro pushed popped op hs
    exact hstep _ op hs
  · intro pushed popped ops hs
    exact QueueRun.queueRun_induction (fun r => r.state.shutdown = true) hstep ops _ hs

/-- Witness of C9 on a closed queue holding two tasks. -/
theorem C9_close_one_way_idempotent_witness :
    ((QueueRun.mk ({ queue := [1, 2], capacity := 2, shutdown := false } :
        TaskQueue Nat).set_shutdown [] []).run
      [.pop, .push 5, .is_empty, .pop, .pop, .set_shutdown]).state.shutdown = true :=
  (C9_close_one_way_idempotent
    (({ queue := [1, 2], capacity := 2, shutdown := false } :
      TaskQueue Nat).set_shutdown)).2.2.2.2.2
    [] [] _ rfl

end QueueClaims

section PoolLemmas
variable {Task : Type}

theorem PoolRun.worker_cons (function : Task → Completion) (r : PoolRun Task) (i : Nat)
    (task : Task) (rest : List Task)
    (hrun : r.pool.threads[i]? = some ThreadState.running)
    (hq : r.pool.task_queue.queue = task :: rest) :
    PoolRun.worker function r i =
      match function task with
      | .returns => some (r.afterPop task rest)
      | .throwsStd what =>
        some { r.afterPop task rest with cerr := r.cerr ++ [taskFailedLine what] }
      | .throwsOther =>
        some { (r.afterPop task rest).setThread i ThreadState.terminated with aborted := true }
      | .neverReturns => some ((r.afterPop task rest).setThread i ThreadState.busy) := by
  have hpop := TaskQueue.pop_cons r.pool.task_queue task rest hq
  cases hs : r.pool.shutdown <;>
    simp only [PoolRun.worker, hrun, ThreadPool.workerMayProceed, ThreadPool.workerMustReturn,
      TaskQueue.is_empty, hq, hs, hpop, if_true, List.isEmpty_cons, Bool.not_false,
      Bool.or_true, Bool.and_false, Bool.false_eq_true, if_false, Bool.true_or] <;>
    cases function task <;> rfl

end PoolLemmas

section PoolInvariant
variable {Task : Type}

/-- A property kept by every attempted step holds after every finite run. -/
theorem PoolRun.poolRun_induction (function : Task → Completion) (P : PoolRun Task → Prop)
    (hstep : ∀ r a, P r → P (r.step function a)) :
    ∀ (acts : List (PoolAction Task)) (r : PoolRun Task), P r → P (r.run function acts) := by
  intro acts
  induction acts with
  | nil => intro r h; exact h
  | cons a acts ih =>
    intro r h
    exact ih (r.step function a) (hstep r a h)

end PoolInvariant

section PoolClaims
variable {Task : Type}

theorem PoolRun.poolRun_append (function : Task → Completion) (r : PoolRun Task)
    (xs ys : List (PoolAction Task)) :
    r.run function (xs ++ ys) = (r.run function xs).run function ys := by
  simp [PoolRun.run, List.foldl_append]

/-- Nothing happens any more once the process has been terminated. -/
theorem PoolRun.poolRun_aborted (function : Task → Completion) (r : PoolRun Task)
    (h : r.aborted = true) (acts : List (PoolAction Task)) : r.run function acts = r := by
  refine PoolRun.poolRun_induction function (fun x => x = r) ?_ acts r rfl
  intro x a hx
  subst hx
  cases a <;> simp only [PoolRun.step, if_pos h]

/-- C6. Post-shutdown rejection: for every pool state in which the pool's shutdown flag
is set and for every task, add_task throws the pool-closed error and leaves the pool,
in particular the content of its queue, exactly as it was; the outcome is the same
whatever the call of `TaskQueue::push` on line 98 would do, that call is not reached
(in the statement-level model no task joins the calls that have reached line 98);
nothing is recorded as accepted; and this is the state the destructor leaves. -/
theorem C6_post_shutdown_rejection {Thread : Type} (p : ThreadPool Task Thread) (task : Task)
    (h : p.shutdown = true) :
    p.add_task task = Outcome.raised poolClosedMsg p ∧
    (∀ pushFn : TaskQueue Task → Task → Outcome (TaskQueue Task) Unit,
      p.add_taskWith pushFn task = Outcome.raised poolClosedMsg p) ∧
    (∀ (function : Task → Completion) (r : PoolRun Task), r.pool.shutdown = true →
      r.step function (PoolAction.add_task task) = r) ∧
    (∀ (function : Task → Completion) (s : Interleaving Task), s.pool.shutdown = true →
      s.step function (ThreadStep.add_task_enter task) = s) ∧
    (∀ p0 : ThreadPool Task Thread,
      p0.destructor.add_task task = Outcome.raised poolClosedMsg p0.destructor) := by
  have key : ∀ {Th : Type} (p1 : ThreadPool Task Th), p1.shutdown = true →
      ∀ pushFn : TaskQueue Task → Task → Outcome (TaskQueue Task) Unit,
        p1.add_taskWith pushFn task = Outcome.raised poolClosedMsg p1 := by
    intro Th p1 h1 pushFn
    simp [ThreadPool.add_taskWith, h1]
  refine ⟨key p h _, key p h, ?_, ?_, ?_⟩
  · intro function r hr
    by_cases hab : r.aborted = true
    · simp only [PoolRun.step, if_pos hab]
    · simp only [PoolRun.step, if_neg hab, ThreadPool.add_task, key r.pool hr]
  · intro function s hs
    by_cases hab : s.aborted = true
    · simp only [Interleaving.step, if_pos hab]
    · by_cases ho : s.owner = none
      · simp [Interleaving.step, hab, Interleaving.addTaskEnter, ho, hs]
      · simp [Interleaving.step, hab, Interleaving.addTaskEnter, ho]
  · intro p0
    exact key p0.destructor rfl _

/-- Witness of C6: a shut-down pool whose queue is full and open, so that a call of
push would have blocked. -/
theorem C6_post_shutdown_rejection_witness :
    ({ task_queue := { queue := [1, 2], capacity := 2, shutdown := false },
       threads := [ThreadState.running], shutdown := true } :
      ThreadPool Nat ThreadState).add_task 3 =
    Outcome.raised poolClosedMsg
      { task_queue := { queue := [1, 2], capacity := 2, shutdown := false },
        threads := [ThreadState.running], shutdown := true } :=
  (C6_post_shutdown_rejection _ 3 rfl).1

/-- C7 as stated fails: with one worker, a task that throws a value that is not a
`std::exception` is not caught on line 116; nothing is reported, the worker is
terminated with the process, and the task accepted after it is never executed,
whatever happens next. -/
theorem C7_task_isolation_counterexample :
    throwsIntFirst 0 = Completion.throwsOther ∧
    (PoolRun.run throwsIntFirst (PoolRun.init 1 2)
      [.add_task 0, .add_task 1, .worker 0] : PoolRun Nat) =
      { pool := { task_queue := { queue := [1], capacity := 2, shutdown := false },
                  threads := [ThreadState.terminated], shutdown := false },
        accepted := [0, 1], executed := [0], cerr := [], aborted := true } ∧
    ∀ acts : List (PoolAction Nat),
      (PoolRun.run throwsIntFirst (PoolRun.init 1 2)
        ([.add_task 0, .add_task 1, .worker 0] ++ acts)).executed = [0] := by
  refine ⟨rfl, by decide, ?_⟩
  intro acts
  rw [PoolRun.poolRun_append]
  have h3 : (PoolRun.run throwsIntFirst (PoolRun.init 1 2)
      [.add_task 0, .add_task 1, .worker 0] : PoolRun Nat).aborted = true := by decide
  rw [PoolRun.poolRun_aborted throwsIntFirst _ h3 acts]
  decide

/-- C7 amended.  Task isolation for failures that are `std::exception`s: when the task
at the front of the queue throws an exception derived from `std::exception`, the
iteration of the worker that takes it completes; it removes that task, records its
execution and writes `Task failed: ` followed by `what()` to `std::cerr`; the thread
states are unchanged, so the worker is still running, and the process is not
terminated by it; and the next iteration of that worker executes the task that was
queued behind the failing one. -/
theorem C7_task_isolation_std (function : Task → Completion) (r : PoolRun Task) (i : Nat)
    (task : Task) (rest : List Task) (what : String)
    (hrun : r.pool.threads[i]? = some ThreadState.running)
    (hq : r.pool.task_queue.queue = task :: rest)
    (hf : function task = Completion.throwsStd what) :
    PoolRun.worker function r i =
      some { pool := { r.pool with task_queue := { r.pool.task_queue with queue := rest } }
             accepted := r.accepted
             executed := r.executed ++ [task]
             cerr := r.cerr ++ ["Task failed: " ++ what]
             aborted := r.aborted } ∧
    (∀ r1 : PoolRun Task, PoolRun.worker function r i = some r1 →
      r1.pool.threads = r.pool.threads ∧ r1.pool.threads[i]? = some ThreadState.running ∧
      r1.aborted = r.aborted ∧
      ∀ (next : Task) (rest2 : List Task), rest = next :: rest2 →
        ∃ r2 : PoolRun Task, PoolRun.worker function r1 i = some r2 ∧
          r2.executed = r.executed ++ [task, next] ∧
          r2.pool.task_queue.queue = rest2) := by
  have hw := PoolRun.worker_cons function r i task rest hrun hq
  rw [hf] at hw
  refine ⟨hw, ?_⟩
  intro r1 hr1
  rw [hw] at hr1
  simp only [Option.some.injEq] at hr1
  subst hr1
  refine ⟨rfl, hrun, rfl, ?_⟩
  intro next rest2 hrest
  subst hrest
  have hw2 := PoolRun.worker_cons function
    ({ r.afterPop task (next :: rest2) with cerr := r.cerr ++ [taskFailedLine what] })
    i next rest2 hrun rfl
  rw [hw2]
  cases function next <;>
    exact ⟨_, rfl, by simp [PoolRun.afterPop, PoolRun.setQueue, PoolRun.setThread],
      by simp [PoolRun.afterPop, PoolRun.setQueue, PoolRun.setThread]⟩

/-- Witness of the amended C7: task `1` throws a `std::exception`, task `2` is queued
behind it. -/
theorem C7_task_isolation_std_witness :
    PoolRun.worker (fun k : Nat => if k = 1 then Completion.throwsStd "boom" else
        Completion.returns)
      { pool := { task_queue := { queue := [1, 2], capacity := 4, shutdown := false },
                  threads := [ThreadState.running], shutdown := false },
        accepted := [1, 2], executed := [], cerr := [], aborted := false } 0 =
      some { pool := { task_queue := { queue := [2], capacity := 4, shutdown := false },
                       threads := [ThreadState.running], shutdown := false },
             accepted := [1, 2], executed := [1], cerr := ["Task failed: boom"],
             aborted := false } :=
  (C7_task_isolation_std (fun k : Nat => if k = 1 then Completion.throwsStd "boom" else
        Completion.returns)
      { pool := { task_queue := { queue := [1, 2], capacity := 4, shutdown := false },
                  threads := [ThreadState.running], shutdown := false },
        accepted := [1, 2], executed := [], cerr := [], aborted := false } 0 1 [2] "boom"
      rfl rfl rfl).1

end PoolClaims

section InterleavingLemmas
variable {Task : Type}

theorem Interleaving.interleaving_induction (function : Task → Completion)
    (P : Interleaving Task → Prop) (hstep : ∀ s a, P s → P (s.step function a)) :
    ∀ (steps : List (ThreadStep Task)) (s : Interleaving Task),
      P s → P (s.run function steps) := by
  intro steps
  induction steps with
  | nil => intro s h; exact h
  | cons a steps ih =>
    intro s h
    exact ih (s.step function a) (hstep s a h)

theorem Interleaving.safe_init (n c : Nat) :
    Interleaving.Safe (Interleaving.init n c : Interleaving Task) := by
  have hpc : ∀ (i : Nat) (pc : Pc Task),
      (List.replicate n (Pc.loopTop : Pc Task))[i]? = some pc → pc = Pc.loopTop := by
    intro i pc h
    rw [List.getElem?_replicate] at h
    by_cases hi : i < n
    · simp only [hi, if_true, Option.some.injEq] at h
      exact h.symm
    · simp [hi] at h
  refine ⟨?_, ?_, ?_⟩
  · intro i pc h hcs
    have := hpc i pc h
    subst this
    cases hcs
  · intro i h
    have := hpc i _ h
    cases this
  · intro i h
    have := hpc i _ h
    cases this

/-- Steps of threads other than the workers: the positions of the workers and the owner
of the mutex are unchanged, a non-empty queue stays non-empty and a set flag stays set. -/
theorem Interleaving.safe_of_same_threads (s s1 : Interleaving Task)
    (h : Interleaving.Safe s)
    (hth : s1.pool.threads = s.pool.threads) (hown : s1.owner = s.owner)
    (hq : s.pool.task_queue.queue ≠ [] → s1.pool.task_queue.queue ≠ [])
    (hsd : s.pool.shutdown = true → s1.pool.shutdown = true) :
    Interleaving.Safe s1 := by
  obtain ⟨h1, h2, h3⟩ := h
  refine ⟨?_, ?_, ?_⟩
  · intro i pc hi hcs
    rw [hth] at hi
    rw [hown]
    exact h1 i pc hi hcs
  · intro i hi
    rw [hth] at hi
    rcases h2 i hi with h | h
    · exact Or.inl (hsd h)
    · exact Or.inr (hq h)
  · intro i hi
    rw [hth] at hi
    exact hq (h3 i hi)

/-- A step of worker `j` to the position `pc1`: the new position must be justified, and
either no other worker can be in the critical section (the mutex was free or owned by
`j`), or the owner, the queue and the flag are unchanged. -/
theorem Interleaving.safe_of_set_thread (s s1 : Interleaving Task) (j : Nat) (pc1 : Pc Task)
    (h : Interleaving.Safe s)
    (hth : s1.pool.threads = s.pool.threads.set j pc1)
    (hj : j < s.pool.threads.length)
    (hcs : Interleaving.inCriticalSection pc1 = true → s1.owner = some j)
    (hexit : pc1 = Pc.exitTest →
      s1.pool.shutdown = true ∨ s1.pool.task_queue.queue ≠ [])
    (hpop : pc1 = Pc.callPop → s1.pool.task_queue.queue ≠ [])
    (hother : (s.owner = none ∨ s.owner = some j) ∨
      (s1.owner = s.owner ∧ s1.pool.task_queue.queue = s.pool.task_queue.queue ∧
        s1.pool.shutdown = s.pool.shutdown)) :
    Interleaving.Safe s1 := by
  obtain ⟨h1, h2, h3⟩ := h
  have hget : ∀ (i : Nat) (pc : Pc Task), s1.pool.threads[i]? = some pc →
      (i = j ∧ pc = pc1) ∨ (i ≠ j ∧ s.pool.threads[i]? = some pc) := by
    intro i pc hi
    rw [hth] at hi
    by_cases hij : i = j
    · subst hij
      rw [List.getElem?_set_self hj] at hi
      simp only [Option.some.injEq] at hi
      exact Or.inl ⟨rfl, hi.symm⟩
    · rw [List.getElem?_set_ne (Ne.symm hij)] at hi
      exact Or.inr ⟨hij, hi⟩
  have hfree : ∀ (i : Nat) (pc : Pc Task), i ≠ j → s.pool.threads[i]? = some pc →
      Interleaving.inCriticalSection pc = true →
      s1.owner = s.owner ∧ s1.pool.task_queue.queue = s.pool.task_queue.queue ∧
        s1.pool.shutdown = s.pool.shutdown := by
    intro i pc hij hi hc
    have ho := h1 i pc hi hc
    rcases hother with (hn | hn) | hsame
    · rw [hn] at ho; cases ho
    · rw [hn] at ho
      simp only [Option.some.injEq] at ho
      exact absurd ho.symm hij
    · exact hsame
  refine ⟨?_, ?_, ?_⟩
  · intro i pc hi hc
    rcases hget i pc hi with ⟨hij, hpc⟩ | ⟨hij, hold⟩
    · subst hij; subst hpc
      exact hcs hc
    · rw [(hfree i pc hij hold hc).1]
      exact h1 i pc hold hc
  · intro i hi
    rcases hget i _ hi with ⟨_, hpc⟩ | ⟨hij, hold⟩
    · exact hexit hpc.symm
    · obtain ⟨_, hq, hsd⟩ := hfree i _ hij hold rfl
      rw [hq, hsd]
      exact h2 i hold
  · intro i hi
    rcases hget i _ hi with ⟨_, hpc⟩ | ⟨hij, hold⟩
    · exact hpop hpc.symm
    · obtain ⟨_, hq, _⟩ := hfree i _ hij hold rfl
      rw [hq]
      exact h3 i hold

end InterleavingLemmas

section InterleavingSteps
variable {Task : Type}

theorem Interleaving.safe_workerStep (function : Task → Completion) (s s1 : Interleaving Task)
    (j : Nat) (h : Interleaving.Safe s) (hstep : Interleaving.workerStep function s j = some s1) :
    Interleaving.Safe s1 := by
  cases hpc : s.pool.threads[j]? with
  | none => simp [Interleaving.workerStep, hpc] at hstep
  | some pc =>
    have hj : j < s.pool.threads.length := by
      rcases List.getElem?_eq_some.mp hpc with ⟨hlt, _⟩
      exact hlt
    cases pc with
    | loopTop =>
      simp only [Interleaving.workerStep, hpc] at hstep
      by_cases ho : s.owner = none
      · simp only [ho, if_true, Option.some.injEq] at hstep
        subst hstep
        exact Interleaving.safe_of_set_thread s _ j Pc.waitPred h rfl hj (fun _ => rfl)
          (fun hc => by cases hc) (fun hc => by cases hc) (Or.inl (Or.inl ho))
      · simp [ho] at hstep
    | waiting =>
      simp only [Interleaving.workerStep, hpc] at hstep
      by_cases ho : s.owner = none
      · simp only [ho, if_true, Option.some.injEq] at hstep
        subst hstep
        exact Interleaving.safe_of_set_thread s _ j Pc.waitPred h rfl hj (fun _ => rfl)
          (fun hc => by cases hc) (fun hc => by cases hc) (Or.inl (Or.inl ho))
      · simp [ho] at hstep
    | waitPred =>
      have ho : s.owner = some j := h.1 j _ hpc rfl
      simp only [Interleaving.workerStep, hpc] at hstep
      by_cases hp : s.pool.workerMayProceed = true
      · simp only [hp, if_true, Option.some.injEq] at hstep
        subst hstep
        refine Interleaving.safe_of_set_thread s _ j Pc.exitTest h rfl hj (fun _ => ho)
          (fun _ => ?_) (fun hc => by cases hc) (Or.inl (Or.inr ho))
        simp only [ThreadPool.workerMayProceed, TaskQueue.is_empty, Bool.or_eq_true,
          Bool.not_eq_true', List.isEmpty_eq_false] at hp
        exact hp
      · simp only [hp, Bool.false_eq_true, if_false, Option.some.injEq] at hstep
        subst hstep
        exact Interleaving.safe_of_set_thread s _ j Pc.waiting h rfl hj
          (fun hc => by cases hc) (fun hc => by cases hc) (fun hc => by cases hc)
          (Or.inl (Or.inr ho))
    | exitTest =>
      have ho : s.owner = some j := h.1 j _ hpc rfl
      have hw := h.2.1 j hpc
      simp only [Interleaving.workerStep, hpc] at hstep
      by_cases hp : s.pool.workerMustReturn = true
      · simp only [hp, if_true, Option.some.injEq] at hstep
        subst hstep
        exact Interleaving.safe_of_set_thread s _ j Pc.returned h rfl hj
          (fun hc => by cases hc) (fun hc => by cases hc) (fun hc => by cases hc)
          (Or.inl (Or.inr ho))
      · simp only [hp, Bool.false_eq_true, if_false, Option.some.injEq] at hstep
        subst hstep
        refine Interleaving.safe_of_set_thread s _ j Pc.callPop h rfl hj (fun _ => ho)
          (fun hc => by cases hc) (fun _ => ?_) (Or.inl (Or.inr ho))
        simp only [ThreadPool.workerMustReturn, TaskQueue.is_empty, Bool.and_eq_true,
          List.isEmpty_iff, not_and] at hp
        show s.pool.task_queue.queue ≠ []
        rcases hw with hw | hw
        · exact hp hw
        · exact hw
    | callPop =>
      have ho : s.owner = some j := h.1 j _ hpc rfl
      have hne := h.2.2 j hpc
      simp only [Interleaving.workerStep, hpc] at hstep
      cases hq : s.pool.task_queue.queue with
      | nil => exact absurd hq hne
      | cons task rest =>
        rw [TaskQueue.pop_cons _ task rest hq] at hstep
        simp only [Option.some.injEq] at hstep
        subst hstep
        exact Interleaving.safe_of_set_thread s _ j (Pc.callTask task) h rfl hj
          (fun hc => by cases hc) (fun hc => by cases hc) (fun hc => by cases hc)
          (Or.inl (Or.inr ho))
    | callTask task =>
      simp only [Interleaving.workerStep, hpc] at hstep
      cases hf : function task <;> rw [hf] at hstep <;>
        simp only [Option.some.injEq] at hstep <;> subst hstep
      · exact Interleaving.safe_of_set_thread s _ j Pc.loopTop h rfl hj
          (fun hc => by cases hc) (fun hc => by cases hc) (fun hc => by cases hc)
          (Or.inr ⟨rfl, rfl, rfl⟩)
      · exact Interleaving.safe_of_set_thread s _ j Pc.loopTop h rfl hj
          (fun hc => by cases hc) (fun hc => by cases hc) (fun hc => by cases hc)
          (Or.inr ⟨rfl, rfl, rfl⟩)
      · exact Interleaving.safe_of_set_thread s _ j Pc.terminated h rfl hj
          (fun hc => by cases hc) (fun hc => by cases hc) (fun hc => by cases hc)
          (Or.inr ⟨rfl, rfl, rfl⟩)
      · exact Interleaving.safe_of_set_thread s _ j Pc.busy h rfl hj
          (fun hc => by cases hc) (fun hc => by cases hc) (fun hc => by cases hc)
          (Or.inr ⟨rfl, rfl, rfl⟩)
    | returned => simp [Interleaving.workerStep, hpc] at hstep
    | terminated => simp [Interleaving.workerStep, hpc] at hstep
    | busy => simp [Interleaving.workerStep, hpc] at hstep

theorem Interleaving.safe_addTaskEnter (s s1 : Interleaving Task) (task : Task)
    (h : Interleaving.Safe s) (hstep : Interleaving.addTaskEnter s task = some s1) :
    Interleaving.Safe s1 := by
  simp only [Interleaving.addTaskEnter] at hstep
  by_cases ho : s.owner = none
  · cases hs : s.pool.shutdown <;>
      simp only [if_pos ho, hs, if_true, Bool.false_eq_true, if_false,
        Option.some.injEq] at hstep <;>
      subst hstep
    · exact Interleaving.safe_of_same_threads s _ h rfl rfl (fun x => x) (fun x => x)
    · exact h
  · simp [ho] at hstep

theorem Interleaving.safe_addTaskPush (s s1 : Interleaving Task) (k : Nat)
    (h : Interleaving.Safe s) (hstep : Interleaving.addTaskPush s k = some s1) :
    Interleaving.Safe s1 := by
  simp only [Interleaving.addTaskPush] at hstep
  cases hk : s.pending[k]? with
  | none => simp [hk] at hstep
  | some task =>
    simp only [hk] at hstep
    cases hs : s.pool.task_queue.shutdown
    · rw [TaskQueue.push_open _ _ hs] at hstep
      by_cases hlt : s.pool.task_queue.queue.length < s.pool.task_queue.capacity
      · simp only [hlt, if_true, Option.some.injEq] at hstep
        subst hstep
        refine Interleaving.safe_of_same_threads s _ h rfl rfl (fun _ => ?_) (fun x => x)
        simp [Interleaving.setQueue]
      · simp [hlt] at hstep
    · rw [TaskQueue.push_closed _ _ hs] at hstep
      simp only [Option.some.injEq] at hstep
      subst hstep
      exact Interleaving.safe_of_same_threads s _ h rfl rfl (fun x => x) (fun x => x)

theorem Interleaving.safe_destructorStep (s s1 : Interleaving Task)
    (h : Interleaving.Safe s) (hstep : Interleaving.destructorStep s = some s1) :
    Interleaving.Safe s1 := by
  simp only [Interleaving.destructorStep] at hstep
  cases hd : s.dtor with
  | notStarted =>
    simp only [hd] at hstep
    by_cases ho : s.owner = none
    · simp only [if_pos ho, Option.some.injEq] at hstep
      subst hstep
      exact Interleaving.safe_of_same_threads s _ h rfl rfl (fun x => x) (fun _ => rfl)
    · simp [ho] at hstep
  | flagSet =>
    simp only [hd, Option.some.injEq] at hstep
    subst hstep
    exact Interleaving.safe_of_same_threads s _ h rfl rfl (fun x => x) (fun x => x)
  | queueClosed => simp [hd] at hstep

theorem Interleaving.safe_getD (s : Interleaving Task) (o : Option (Interleaving Task))
    (h : Interleaving.Safe s) (ho : ∀ s1, o = some s1 → Interleaving.Safe s1) :
    Interleaving.Safe (o.getD s) := by
  cases o with
  | none => exact h
  | some s1 => exact ho s1 rfl

theorem Interleaving.safe_step (function : Task → Completion) (s : Interleaving Task)
    (a : ThreadStep Task) (h : Interleaving.Safe s) :
    Interleaving.Safe (s.step function a) := by
  by_cases hab : s.aborted = true
  · cases a <;> simp only [Interleaving.step, if_pos hab] <;> exact h
  · cases a with
    | worker i =>
      simp only [Interleaving.step, if_neg hab]
      exact Interleaving.safe_getD s _ h
        (fun s1 hs1 => Interleaving.safe_workerStep function s s1 i h hs1)
    | add_task_enter task =>
      simp only [Interleaving.step, if_neg hab]
      exact Interleaving.safe_getD s _ h
        (fun s1 hs1 => Interleaving.safe_addTaskEnter s s1 task h hs1)
    | add_task_push k =>
      simp only [Interleaving.step, if_neg hab]
      exact Interleaving.safe_getD s _ h
        (fun s1 hs1 => Interleaving.safe_addTaskPush s s1 k h hs1)
    | destructor =>
      simp only [Interleaving.step, if_neg hab]
      exact Interleaving.safe_getD s _ h
        (fun s1 hs1 => Interleaving.safe_destructorStep s s1 h hs1)

theorem Interleaving.safe_run (function : Task → Completion) (n c : Nat)
    (steps : List (ThreadStep Task)) :
    Interleaving.Safe ((Interleaving.init n c : Interleaving Task).run function steps) :=
  Interleaving.interleaving_induction function Interleaving.Safe
    (fun s a h => Interleaving.safe_step function s a h) steps _ (Interleaving.safe_init n c)

/-- C10. The worker never reaches the error branch or the blocking branch of pop: in
every state reachable by interleaving the statements of any number of workers, of any
number of add_task calls and of the destructor, whenever a worker is about to call
`task_queue.pop()` on line 113 it owns the pool mutex and the queue is not empty, so
that pop returns the front task at once: it neither blocks nor throws the
`Cannot pop tasks from a shutdown queue` error. -/
theorem C10_worker_pop_never_fails (function : Task → Completion) (n c : Nat)
    (steps : List (ThreadStep Task)) (i : Nat)
    (h : ((Interleaving.init n c : Interleaving Task).run function steps).pool.threads[i]? =
      some Pc.callPop) :
    ((Interleaving.init n c : Interleaving Task).run function steps).owner = some i ∧
    ((Interleaving.init n c : Interleaving Task).run function steps).pool.task_queue.queue
      ≠ [] ∧
    (∃ (task : Task) (rest : List Task),
      ((Interleaving.init n c : Interleaving Task).run function steps).pool.task_queue.queue
        = task :: rest ∧
      ((Interleaving.init n c : Interleaving Task).run function steps).pool.task_queue.pop
        = Outcome.done task
          { ((Interleaving.init n c : Interleaving Task).run function steps).pool.task_queue
            with queue := rest }) ∧
    ((Interleaving.init n c : Interleaving Task).run function steps).pool.task_queue.pop
      ≠ Outcome.blocked ∧
    (∀ (what : String) (q : TaskQueue Task),
      ((Interleaving.init n c : Interleaving Task).run function steps).pool.task_queue.pop
        ≠ Outcome.raised what q) := by
  have hsafe := Interleaving.safe_run function n c steps
  have ho := hsafe.1 i _ h rfl
  have hne := hsafe.2.2 i h
  cases hq : ((Interleaving.init n c : Interleaving Task).run function
      steps).pool.task_queue.queue with
  | nil => exact absurd hq hne
  | cons task rest =>
    have hpop := TaskQueue.pop_cons _ task rest hq
    refine ⟨ho, by simp, ⟨task, rest, rfl, hpop⟩, ?_, ?_⟩
    · rw [hpop]; simp
    · intro what q
      rw [hpop]; simp

/-- Witness of C10: one worker and one accepted task; the worker locks the mutex,
passes the wait predicate and the test of line 110 and stands before the pop. -/
theorem C10_worker_pop_never_fails_witness :
    ((Interleaving.init 1 1 : Interleaving Nat).run (fun _ => Completion.returns)
      [.add_task_enter 7, .add_task_push 0, .worker 0, .worker 0, .worker 0]).pool.threads[0]?
      = some Pc.callPop ∧
    ((Interleaving.init 1 1 : Interleaving Nat).run (fun _ => Completion.returns)
      [.add_task_enter 7, .add_task_push 0, .worker 0, .worker 0, .worker 0]).pool.task_queue.queue
      ≠ [] :=
  ⟨by decide,
   (C10_worker_pop_never_fails (fun _ => Completion.returns) 1 1
      [.add_task_enter 7, .add_task_push 0, .worker 0, .worker 0, .worker 0] 0 (by decide)).2.1⟩

end InterleavingSteps

section LedgerLemmas
variable {Task : Type}

end LedgerLemmas

section LedgerSteps
variable {Task : Type}

end LedgerSteps

section LedgerRun
variable {Task : Type}

end LedgerRun

section QuiescedRun
variable {Task : Type}

end QuiescedRun

section ExhaustiveClaim
variable {Task : Type}

end ExhaustiveClaim

section ExhaustiveAmended
variable {Task : Type}

end ExhaustiveAmended

end ThreadPoolImpl
